import Mathlib

/-!
Verification of the buffered Mandelbrot viewport program
(`mendelbrot/pygamer/code.py`): escape-time evaluator, buffer renderer,
coordinate mapper, viewport controller (pan / zoom / edge-triggered
recompute) and the position-indicator overlay.

Modelling conventions: Python floats are modelled by exact rationals
(`ℚ`); "within floating-point tolerance" statements become exact
equalities of the corresponding rational expressions.  Python `int()`
truncation on the nonnegative quantities appearing here is floor, hence
`ℕ` division / `Int.toNat ∘ Int.floor`.  Pixel offsets are `ℤ`, so the
clamping arithmetic of the source is represented verbatim.
-/

namespace Mandel

/-- `WIDTH = board.DISPLAY.width`: the PyGamer display is 160×128;
this value is supplied by the external display driver. -/
def WIDTH : ℕ := 160

/-- `HEIGHT = board.DISPLAY.height` (PyGamer display). -/
def HEIGHT : ℕ := 128

/-- `BUFFER_FACTOR = 1.5` (exact as a rational). -/
def BUFFER_FACTOR : ℚ := 3 / 2

/-- `BUFFER_WIDTH = int(WIDTH * BUFFER_FACTOR)`. -/
def BUFFER_WIDTH : ℕ := Int.toNat ⌊(WIDTH : ℚ) * BUFFER_FACTOR⌋

/-- `BUFFER_HEIGHT = int(HEIGHT * BUFFER_FACTOR)`. -/
def BUFFER_HEIGHT : ℕ := Int.toNat ⌊(HEIGHT : ℚ) * BUFFER_FACTOR⌋

/-- `MAX_ITER = 30`. -/
def MAX_ITER : ℕ := 30

/-- `ZOOM_FACTOR = 1.1` (exact as a rational). -/
def ZOOM_FACTOR : ℚ := 11 / 10

/-- `PAN_PIXEL_SPEED = 1`. -/
def PAN_PIXEL_SPEED : ℕ := 1

/-- `BUFFER_EDGE_THRESHOLD = int(min(WIDTH, HEIGHT) * 0.1)`. -/
def BUFFER_EDGE_THRESHOLD : ℕ := Int.toNat ⌊(min WIDTH HEIGHT : ℚ) / 10⌋

/-- `BOX_SIZE = 24`: side of the square position-indicator overlay. -/
def BOX_SIZE : ℕ := 24

theorem BUFFER_WIDTH_eq : BUFFER_WIDTH = 240 := by
  norm_num [BUFFER_WIDTH, WIDTH, BUFFER_FACTOR]; rfl

theorem BUFFER_HEIGHT_eq : BUFFER_HEIGHT = 192 := by
  norm_num [BUFFER_HEIGHT, HEIGHT, BUFFER_FACTOR]; rfl

theorem BUFFER_EDGE_THRESHOLD_eq : BUFFER_EDGE_THRESHOLD = 12 := by
  norm_num [BUFFER_EDGE_THRESHOLD, WIDTH, HEIGHT]; rfl

/-- The loop of `mandelbrot`: `for i in range(max_iter)` with running
state `(z_real, z_imag)`; on `z_real² + z_imag² > 4.0` return `i`,
otherwise update `z ← z² + c`; return `max_iter` when the loop ends.
`fuel` is the number of remaining loop iterations, `max_iter - i`. -/
def mandelbrotLoop (c_real c_imag : ℚ) (max_iter : ℕ) :
    ℕ → ℕ → ℚ → ℚ → ℕ
  | 0, _i, _z_real, _z_imag => max_iter
  | fuel + 1, i, z_real, z_imag =>
    let z_real_sq := z_real * z_real
    let z_imag_sq := z_imag * z_imag
    if z_real_sq + z_imag_sq > 4 then i
    else
      mandelbrotLoop c_real c_imag max_iter fuel (i + 1)
        (z_real_sq - z_imag_sq + c_real) (2 * z_real * z_imag + c_imag)

/-- `mandelbrot(c_real, c_imag, max_iter)`: escape-time evaluator,
iterating from `z = 0`. -/
def mandelbrot (c_real c_imag : ℚ) (max_iter : ℕ) : ℕ :=
  mandelbrotLoop c_real c_imag max_iter max_iter 0 0 0

/-- The orbit `z_0 = 0`, `z_{n+1} = z_n² + c`, written with separate
real/imaginary components exactly as the source updates them. -/
def zOrbit (c_real c_imag : ℚ) : ℕ → ℚ × ℚ
  | 0 => (0, 0)
  | n + 1 =>
    let z := zOrbit c_real c_imag n
    (z.1 * z.1 - z.2 * z.2 + c_real, 2 * z.1 * z.2 + c_imag)

/-- The squared magnitude of the `n`-th orbit point exceeds the escape
threshold `4.0`. -/
def escaped (c_real c_imag : ℚ) (n : ℕ) : Prop :=
  (zOrbit c_real c_imag n).1 * (zOrbit c_real c_imag n).1 +
    (zOrbit c_real c_imag n).2 * (zOrbit c_real c_imag n).2 > 4

instance (c_real c_imag : ℚ) (n : ℕ) : Decidable (escaped c_real c_imag n) := by
  unfold escaped; infer_instance

/-- The viewport controller's state: the buffer's complex-plane region
(`current_buffer_real_min` … `current_buffer_imag_max`) and the pixel
offset of the visible view inside the buffer
(`current_view_pixel_x/y`). -/
structure ViewState where
  real_min : ℚ
  real_max : ℚ
  imag_min : ℚ
  imag_max : ℚ
  view_x : ℤ
  view_y : ℤ

/-- `get_screen_center_complex`: complex coordinates of the center of
the currently displayed screen view. -/
def get_screen_center_complex (s : ViewState) : ℚ × ℚ :=
  let real_per_pixel := (s.real_max - s.real_min) / (BUFFER_WIDTH : ℚ)
  let imag_per_pixel := (s.imag_max - s.imag_min) / (BUFFER_HEIGHT : ℚ)
  let screen_top_left_real := s.real_min + (s.view_x : ℚ) * real_per_pixel
  let screen_top_left_imag := s.imag_max - (s.view_y : ℚ) * imag_per_pixel
  (screen_top_left_real + ((WIDTH : ℚ) / 2) * real_per_pixel,
    screen_top_left_imag - ((HEIGHT : ℚ) / 2) * imag_per_pixel)

/-- `screen_real_range = (current_buffer_real_max - current_buffer_real_min)
* (WIDTH / BUFFER_WIDTH)`: the complex-plane extent of the visible
viewport on the real axis, as computed in each handler. -/
def screen_real_range (s : ViewState) : ℚ :=
  (s.real_max - s.real_min) * ((WIDTH : ℚ) / (BUFFER_WIDTH : ℚ))

/-- `screen_imag_range`, the imaginary-axis analogue. -/
def screen_imag_range (s : ViewState) : ℚ :=
  (s.imag_max - s.imag_min) * ((HEIGHT : ℚ) / (BUFFER_HEIGHT : ℚ))

/-- `(BUFFER_WIDTH - WIDTH) // 2`: the x offset that centers the
viewport in the buffer (reset after every recompute). -/
def centeredOffsetX : ℤ := ((BUFFER_WIDTH : ℤ) - (WIDTH : ℤ)) / 2

/-- `(BUFFER_HEIGHT - HEIGHT) // 2`. -/
def centeredOffsetY : ℤ := ((BUFFER_HEIGHT : ℤ) - (HEIGHT : ℤ)) / 2

/-- The zoom-in handler ('A' button): divide the screen ranges by
`ZOOM_FACTOR`, rebuild the buffer region centered on the current screen
center, and re-center the view offset. -/
def zoomInStep (s : ViewState) : ViewState :=
  let screen_center_complex := get_screen_center_complex s
  let new_screen_real_range := screen_real_range s / ZOOM_FACTOR
  let new_screen_imag_range := screen_imag_range s / ZOOM_FACTOR
  let new_buffer_real_range := new_screen_real_range * BUFFER_FACTOR
  let new_buffer_imag_range := new_screen_imag_range * BUFFER_FACTOR
  { real_min := screen_center_complex.1 - new_buffer_real_range / 2
    real_max := screen_center_complex.1 + new_buffer_real_range / 2
    imag_min := screen_center_complex.2 - new_buffer_imag_range / 2
    imag_max := screen_center_complex.2 - new_buffer_imag_range / 2 + new_buffer_imag_range
    view_x := centeredOffsetX
    view_y := centeredOffsetY }

/-- The zoom-out handler ('B' button): same as zoom-in with the screen
ranges multiplied by `ZOOM_FACTOR`. -/
def zoomOutStep (s : ViewState) : ViewState :=
  let screen_center_complex := get_screen_center_complex s
  let new_screen_real_range := screen_real_range s * ZOOM_FACTOR
  let new_screen_imag_range := screen_imag_range s * ZOOM_FACTOR
  let new_buffer_real_range := new_screen_real_range * BUFFER_FACTOR
  let new_buffer_imag_range := new_screen_imag_range * BUFFER_FACTOR
  { real_min := screen_center_complex.1 - new_buffer_real_range / 2
    real_max := screen_center_complex.1 + new_buffer_real_range / 2
    imag_min := screen_center_complex.2 - new_buffer_imag_range / 2
    imag_max := screen_center_complex.2 - new_buffer_imag_range / 2 + new_buffer_imag_range
    view_x := centeredOffsetX
    view_y := centeredOffsetY }

/-- The edge-triggered recompute (no zoom): keep the screen ranges,
rebuild the buffer region centered on the current screen center, and
re-center the view offset. -/
def edgeRecomputeStep (s : ViewState) : ViewState :=
  let screen_center_complex := get_screen_center_complex s
  let new_buffer_real_range := screen_real_range s * BUFFER_FACTOR
  let new_buffer_imag_range := screen_imag_range s * BUFFER_FACTOR
  { real_min := screen_center_complex.1 - new_buffer_real_range / 2
    real_max := screen_center_complex.1 + new_buffer_real_range / 2
    imag_min := screen_center_complex.2 - new_buffer_imag_range / 2
    imag_max := screen_center_complex.2 - new_buffer_imag_range / 2 + new_buffer_imag_range
    view_x := centeredOffsetX
    view_y := centeredOffsetY }

/-- One joystick axis sample, after dead-zone comparison: below
`32768 - JOYSTICK_DEADZONE`, inside the dead-zone, or above
`32768 + JOYSTICK_DEADZONE`. -/
inductive JoyDir where
  | low
  | mid
  | high

/-- The x-axis pan update: `max(0, x - PAN_PIXEL_SPEED)` when moving
left, `min(BUFFER_WIDTH - WIDTH, x + PAN_PIXEL_SPEED)` when moving
right, unchanged inside the dead-zone. -/
def panX : JoyDir → ℤ → ℤ
  | .low, vx => max 0 (vx - (PAN_PIXEL_SPEED : ℤ))
  | .mid, vx => vx
  | .high, vx => min ((BUFFER_WIDTH : ℤ) - (WIDTH : ℤ)) (vx + (PAN_PIXEL_SPEED : ℤ))

/-- The y-axis pan update, clamped to `[0, BUFFER_HEIGHT - HEIGHT]`. -/
def panY : JoyDir → ℤ → ℤ
  | .low, vy => max 0 (vy - (PAN_PIXEL_SPEED : ℤ))
  | .mid, vy => vy
  | .high, vy => min ((BUFFER_HEIGHT : ℤ) - (HEIGHT : ℤ)) (vy + (PAN_PIXEL_SPEED : ℤ))

/-- One main-loop joystick sampling: both axes adjusted independently. -/
def panStep (s : ViewState) (dx dy : JoyDir) : ViewState :=
  { s with view_x := panX dx s.view_x, view_y := panY dy s.view_y }

/-- A sequence of pan steps applied in order. -/
def panSeq (s : ViewState) (l : List (JoyDir × JoyDir)) : ViewState :=
  l.foldl (fun t p => panStep t p.1 p.2) s

/-- The `ViewOffset` invariant: within `[0, BUFFER_DIM - VIEWPORT_DIM]`
on both axes. -/
def offsetInRange (vx vy : ℤ) : Prop :=
  0 ≤ vx ∧ vx ≤ (BUFFER_WIDTH : ℤ) - (WIDTH : ℤ) ∧
  0 ≤ vy ∧ vy ≤ (BUFFER_HEIGHT : ℤ) - (HEIGHT : ℤ)

instance (vx vy : ℤ) : Decidable (offsetInRange vx vy) := by
  unfold offsetInRange; infer_instance

/-- The buffer-edge check guarding the recompute after a pan: either
axis within `threshold` of either extreme of its valid range. -/
def bufferEdgeReached (threshold vx vy : ℤ) : Prop :=
  vx ≤ threshold ∨ vx ≥ (BUFFER_WIDTH : ℤ) - (WIDTH : ℤ) - threshold ∨
  vy ≤ threshold ∨ vy ≥ (BUFFER_HEIGHT : ℤ) - (HEIGHT : ℤ) - threshold

instance (threshold vx vy : ℤ) : Decidable (bufferEdgeReached threshold vx vy) := by
  unfold bufferEdgeReached; infer_instance

/-- The startup state (source lines 37–61): center `(-0.5, 0)`, screen
real range `3.0`, buffer ranges scaled by `BUFFER_FACTOR`, view offset
centered. -/
def initialState : ViewState :=
  let initial_center_real : ℚ := -(1 / 2)
  let initial_center_imag : ℚ := 0
  let initial_screen_real_range : ℚ := 3
  let initial_screen_imag_range : ℚ :=
    initial_screen_real_range * ((HEIGHT : ℚ) / (WIDTH : ℚ))
  let buffer_real_range := initial_screen_real_range * BUFFER_FACTOR
  let buffer_imag_range := initial_screen_imag_range * BUFFER_FACTOR
  { real_min := initial_center_real - buffer_real_range / 2
    real_max := initial_center_real + buffer_real_range / 2
    imag_min := initial_center_imag - buffer_imag_range / 2
    imag_max := initial_center_imag - buffer_imag_range / 2 + buffer_imag_range
    view_x := centeredOffsetX
    view_y := centeredOffsetY }

/-- `calculate_mandelbrot_buffer`: the color index stored at buffer
pixel `(x, y)` — the evaluator applied to the pixel's complex
coordinate (`real_min_buf + x * real_step`,
`imag_max_buf - y * imag_step`, y axis inverted) with `MAX_ITER`. -/
def calculate_mandelbrot_buffer
    (real_min_buf real_max_buf imag_min_buf imag_max_buf : ℚ) (x y : ℕ) : ℕ :=
  let real_step := (real_max_buf - real_min_buf) / (BUFFER_WIDTH : ℚ)
  let imag_step := (imag_max_buf - imag_min_buf) / (BUFFER_HEIGHT : ℚ)
  mandelbrot (real_min_buf + (x : ℚ) * real_step)
    (imag_max_buf - (y : ℚ) * imag_step) MAX_ITER

/-- The per-frame indicator inner-box computation (source lines
496–505), parameterized by the buffer dimensions `bw, bh`; result is
`(x, y, width, height)` in overlay pixels.  All quantities are
nonnegative, so Python's `int(...)` truncation of the float quotient is
`ℕ` floor division, and the `max 0 (min …)` clamp agrees with the
source's clamp on negative intermediate values. -/
def inner_box (bw bh : ℕ) (view_x view_y : ℕ) : ℕ × ℕ × ℕ × ℕ :=
  let current_inner_box_width := max 1 (WIDTH * BOX_SIZE / bw)
  let current_inner_box_height := max 1 (HEIGHT * BOX_SIZE / bh)
  let current_inner_box_x := view_x * BOX_SIZE / bw
  let current_inner_box_y := view_y * BOX_SIZE / bh
  (max 0 (min current_inner_box_x (BOX_SIZE - current_inner_box_width)),
    max 0 (min current_inner_box_y (BOX_SIZE - current_inner_box_height)),
    current_inner_box_width, current_inner_box_height)

/-- The inclusive integer range `[lo, hi]`, empty when `hi < lo`
(Python's `range(lo, hi + 1)`). -/
def intRange (lo hi : ℤ) : List ℤ :=
  (List.range (hi + 1 - lo).toNat).map (fun (k : ℕ) => lo + (k : ℤ))

/-- The pixels assigned by `draw_rectangle_perimeter(bitmap, x, y,
width, height, color)` on a `bw × bh` bitmap, in execution order: the
top and bottom rows over the clamped x range, then the left and right
columns over the clamped y range, each guarded by the source's bounds
check on the fixed coordinate. -/
def draw_rectangle_perimeter_writes (bw bh x y width height : ℤ) : List (ℤ × ℤ) :=
  let x_start := max 0 x
  let y_start := max 0 y
  let x_end := min (bw - 1) (x + width - 1)
  let y_end := min (bh - 1) (y + height - 1)
  (if 0 ≤ y_start ∧ y_start < bh then
    (intRange x_start x_end).map (fun i => (i, y_start)) else []) ++
  (if 0 ≤ y_end ∧ y_end < bh then
    (intRange x_start x_end).map (fun i => (i, y_end)) else []) ++
  (if 0 ≤ x_start ∧ x_start < bw then
    (intRange y_start y_end).map (fun i => (x_start, i)) else []) ++
  (if 0 ≤ x_end ∧ x_end < bw then
    (intRange y_start y_end).map (fun i => (x_end, i)) else [])

/-- The loop, entered at iteration index `i` with the `i`-th orbit point
and `m - i` iterations of fuel left, returns either the first escaping
index or `m`. -/
theorem mandelbrotLoop_spec (c_real c_imag : ℚ) (m : ℕ) :
    ∀ fuel i, fuel + i = m → (∀ j, j < i → ¬ escaped c_real c_imag j) →
      mandelbrotLoop c_real c_imag m fuel i
          (zOrbit c_real c_imag i).1 (zOrbit c_real c_imag i).2 ≤ m ∧
      (∀ j, j < mandelbrotLoop c_real c_imag m fuel i
          (zOrbit c_real c_imag i).1 (zOrbit c_real c_imag i).2 →
        ¬ escaped c_real c_imag j) ∧
      (mandelbrotLoop c_real c_imag m fuel i
          (zOrbit c_real c_imag i).1 (zOrbit c_real c_imag i).2 < m →
        escaped c_real c_imag
          (mandelbrotLoop c_real c_imag m fuel i
            (zOrbit c_real c_imag i).1 (zOrbit c_real c_imag i).2)) := by
  intro fuel
  induction fuel with
  | zero =>
    intro i hfi hprev
    simp only [mandelbrotLoop]
    refine ⟨le_refl m, fun j hj => hprev j (by omega), fun h => absurd h (lt_irrefl m)⟩
  | succ fuel ih =>
    intro i hfi hprev
    by_cases hesc : escaped c_real c_imag i
    · have hcond : (zOrbit c_real c_imag i).1 * (zOrbit c_real c_imag i).1 +
          (zOrbit c_real c_imag i).2 * (zOrbit c_real c_imag i).2 > 4 := hesc
      simp only [mandelbrotLoop, if_pos hcond]
      exact ⟨by omega, hprev, fun _ => hesc⟩
    · have hcond : ¬ ((zOrbit c_real c_imag i).1 * (zOrbit c_real c_imag i).1 +
          (zOrbit c_real c_imag i).2 * (zOrbit c_real c_imag i).2 > 4) := hesc
      have hz1 : (zOrbit c_real c_imag i).1 * (zOrbit c_real c_imag i).1 -
          (zOrbit c_real c_imag i).2 * (zOrbit c_real c_imag i).2 + c_real =
          (zOrbit c_real c_imag (i + 1)).1 := by
        simp [zOrbit]
      have hz2 : 2 * (zOrbit c_real c_imag i).1 * (zOrbit c_real c_imag i).2 + c_imag =
          (zOrbit c_real c_imag (i + 1)).2 := by
        simp [zOrbit]
      have hprev1 : ∀ j, j < i + 1 → ¬ escaped c_real c_imag j := by
        intro j hj
        rcases Nat.lt_succ_iff_lt_or_eq.mp hj with h | h
        · exact hprev j h
        · subst h; exact hesc
      have := ih (i + 1) (by omega) hprev1
      simpa only [mandelbrotLoop, if_neg hcond, hz1, hz2] using this

/-- The orbit of `c = 0` stays at the origin. -/
theorem zOrbit_zero (n : ℕ) : zOrbit 0 0 n = (0, 0) := by
  induction n with
  | zero => rfl
  | succ n ih => simp [zOrbit, ih]

/-- The evaluator never returns more than `max_iter`. -/
theorem mandelbrot_le (c_real c_imag : ℚ) (m : ℕ) :
    mandelbrot c_real c_imag m ≤ m :=
  (mandelbrotLoop_spec c_real c_imag m m 0 (by omega) (by omega)).1

/-- C1 counterexample: at `c = (3, 0)` (with `3² + 0² > 4`) and
`max_iter = 2 ≥ 1` the evaluator returns `1`, not `0`: `z` starts at the
origin, so the first magnitude check that can fail is the one at
iteration index 1, after `z ← c`. -/
theorem mandelbrot_outside_disk_not_zero :
    (3 : ℚ) * 3 + 0 * 0 > 4 ∧ (1 : ℕ) ≤ 2 ∧ mandelbrot 3 0 2 ≠ 0 := by
  refine ⟨by norm_num, by norm_num, ?_⟩
  norm_num [mandelbrot, mandelbrotLoop]

/-- A point outside the radius-2 disk escapes at iteration index 1 (or
the loop ends at `max_iter = 1`): the evaluator returns `1`. -/
theorem mandelbrot_gt_four (c_real c_imag : ℚ) (m : ℕ)
    (h4 : c_real * c_real + c_imag * c_imag > 4) (hm : 1 ≤ m) :
    mandelbrot c_real c_imag m = 1 := by
  obtain ⟨k, rfl⟩ : ∃ k, m = k + 1 := ⟨m - 1, by omega⟩
  show mandelbrotLoop c_real c_imag (k + 1) (k + 1) 0 0 0 = 1
  have h0 : ¬ ((0 : ℚ) * 0 + 0 * 0 > 4) := by norm_num
  have e1 : (0 : ℚ) * 0 - 0 * 0 + c_real = c_real := by ring
  have e2 : 2 * (0 : ℚ) * 0 + c_imag = c_imag := by ring
  simp only [mandelbrotLoop, if_neg h0, e1, e2]
  cases k with
  | zero => simp [mandelbrotLoop]
  | succ k => simp only [mandelbrotLoop, if_pos h4]

/-- C1 (amended): for every input `(c_real, c_imag)` with
`c_real² + c_imag² > 4` and every `max_iter ≥ 1`, the escape-time
evaluator returns iteration count `1` (not `0`): the check at index 0
sees the starting `z = 0`, and the escape is reported at index 1 — or,
when `max_iter = 1`, the loop ends and returns `max_iter = 1`.  In
particular `mandelbrot(3.0, 0.0, max_iter)` returns `1`. -/
theorem mandelbrot_outside_disk_returns_one (c_real c_imag : ℚ) (m : ℕ)
    (h4 : c_real * c_real + c_imag * c_imag > 4) (hm : 1 ≤ m) :
    mandelbrot c_real c_imag m = 1 :=
  mandelbrot_gt_four c_real c_imag m h4 hm

/-- C1 witness: the amended statement instantiated at
`(c, max_iter) = ((3, 0), 2)`. -/
theorem mandelbrot_outside_disk_returns_one_witness :
    (3 : ℚ) * 3 + 0 * 0 > 4 ∧ (1 : ℕ) ≤ 2 ∧ mandelbrot 3 0 2 = 1 :=
  ⟨by norm_num, by norm_num,
    mandelbrot_outside_disk_returns_one 3 0 2 (by norm_num) (by norm_num)⟩

/-- C8: for every `c` and `max_iter`, the evaluator returns a value
`r ≤ max_iter` such that no orbit point with index below `r` has
squared magnitude above `4.0`, and if `r < max_iter` then the `r`-th
orbit point does escape — i.e. `r` is the first escaping iteration
index, or `max_iter` when none exists below it; and
`mandelbrot(0, 0, N) = N` since the orbit of `c = 0` stays at the
origin. -/
theorem mandelbrot_escape_characterization (c_real c_imag : ℚ) (m : ℕ) :
    (mandelbrot c_real c_imag m ≤ m ∧
      (∀ j, j < mandelbrot c_real c_imag m → ¬ escaped c_real c_imag j) ∧
      (mandelbrot c_real c_imag m < m →
        escaped c_real c_imag (mandelbrot c_real c_imag m))) ∧
    mandelbrot 0 0 m = m := by
  constructor
  · exact mandelbrotLoop_spec c_real c_imag m m 0 (by omega) (by omega)
  · have hne : ∀ j, ¬ escaped 0 0 j := by
      intro j
      simp [escaped, zOrbit_zero]
    have h := mandelbrotLoop_spec 0 0 m m 0 (by omega) (by omega)
    rcases Nat.lt_or_ge (mandelbrot 0 0 m) m with hlt | hge
    · exact absurd (h.2.2 hlt) (hne _)
    · exact le_antisymm h.1 hge

/-- C8 witness: the characterization applied at concrete inputs —
`mandelbrot 3 0 2 ≤ 2`, index 0 of that run has not escaped, and
`mandelbrot 0 0 5 = 5`. -/
theorem mandelbrot_escape_characterization_witness :
    mandelbrot 3 0 2 ≤ 2 ∧ ¬ escaped 3 0 0 ∧ mandelbrot 0 0 5 = 5 := by
  refine ⟨(mandelbrot_escape_characterization 3 0 2).1.1, ?_,
    (mandelbrot_escape_characterization 0 0 5).2⟩
  apply (mandelbrot_escape_characterization 3 0 2).1.2.1 0
  norm_num [mandelbrot, mandelbrotLoop]

/-- C2: after each of the three `Recomputing` transitions (zoom-in,
zoom-out, edge-triggered recompute) the view offset equals the buffer's
geometric center `((BUFFER_DIM - VIEWPORT_DIM) / 2` per axis), and the
complex-plane center of the visible viewport, computed from the
post-recompute region and offset, is exactly the center computed from
the pre-recompute region and offset (exact in the rational model of the
float arithmetic). -/
theorem recompute_recenters_and_preserves_center (s : ViewState) :
    ((zoomInStep s).view_x = centeredOffsetX ∧
      (zoomInStep s).view_y = centeredOffsetY ∧
      get_screen_center_complex (zoomInStep s) = get_screen_center_complex s) ∧
    ((zoomOutStep s).view_x = centeredOffsetX ∧
      (zoomOutStep s).view_y = centeredOffsetY ∧
      get_screen_center_complex (zoomOutStep s) = get_screen_center_complex s) ∧
    ((edgeRecomputeStep s).view_x = centeredOffsetX ∧
      (edgeRecomputeStep s).view_y = centeredOffsetY ∧
      get_screen_center_complex (edgeRecomputeStep s) =
        get_screen_center_complex s) := by
  refine ⟨⟨rfl, rfl, ?_⟩, ⟨rfl, rfl, ?_⟩, ⟨rfl, rfl, ?_⟩⟩ <;>
    · simp only [get_screen_center_complex, zoomInStep, zoomOutStep,
        edgeRecomputeStep, screen_real_range, screen_imag_range,
        centeredOffsetX, centeredOffsetY, ZOOM_FACTOR, BUFFER_FACTOR,
        WIDTH, HEIGHT, BUFFER_WIDTH_eq, BUFFER_HEIGHT_eq, Prod.mk.injEq]
      norm_num
      constructor <;> ring

/-- C4: an edge-triggered recompute (no zoom) leaves the viewport's
complex-plane extent unchanged: both screen ranges derived from the new
buffer region equal those derived from the old one, exactly. -/
theorem edge_recompute_preserves_screen_ranges (s : ViewState) :
    screen_real_range (edgeRecomputeStep s) = screen_real_range s ∧
    screen_imag_range (edgeRecomputeStep s) = screen_imag_range s := by
  constructor <;>
    · simp only [edgeRecomputeStep, screen_real_range, screen_imag_range,
        get_screen_center_complex, BUFFER_FACTOR, WIDTH, HEIGHT,
        BUFFER_WIDTH_eq, BUFFER_HEIGHT_eq]
      norm_num
      ring

/-- C5: a zoom-in (screen ranges divided by `ZOOM_FACTOR`) immediately
followed by a zoom-out (multiplied by `ZOOM_FACTOR`) restores both
screen ranges exactly, for every starting buffer region and view
offset. -/
theorem zoom_in_then_out_restores_ranges (s : ViewState) :
    screen_real_range (zoomOutStep (zoomInStep s)) = screen_real_range s ∧
    screen_imag_range (zoomOutStep (zoomInStep s)) = screen_imag_range s := by
  constructor <;>
    · simp only [zoomInStep, zoomOutStep, screen_real_range, screen_imag_range,
        get_screen_center_complex, ZOOM_FACTOR, BUFFER_FACTOR, WIDTH, HEIGHT,
        BUFFER_WIDTH_eq, BUFFER_HEIGHT_eq]
      norm_num
      ring

/-- Pan updates keep the x offset inside `[0, BUFFER_WIDTH - WIDTH]`. -/
theorem panX_range (d : JoyDir) (vx : ℤ) (h1 : 0 ≤ vx)
    (h2 : vx ≤ (BUFFER_WIDTH : ℤ) - (WIDTH : ℤ)) :
    0 ≤ panX d vx ∧ panX d vx ≤ (BUFFER_WIDTH : ℤ) - (WIDTH : ℤ) := by
  cases d <;> simp only [panX, PAN_PIXEL_SPEED] <;> push_cast <;> omega

/-- Pan updates keep the y offset inside `[0, BUFFER_HEIGHT - HEIGHT]`. -/
theorem panY_range (d : JoyDir) (vy : ℤ) (h1 : 0 ≤ vy)
    (h2 : vy ≤ (BUFFER_HEIGHT : ℤ) - (HEIGHT : ℤ)) :
    0 ≤ panY d vy ∧ panY d vy ≤ (BUFFER_HEIGHT : ℤ) - (HEIGHT : ℤ) := by
  cases d <;> simp only [panY, PAN_PIXEL_SPEED] <;> push_cast <;> omega

/-- C6: for every sequence of pan inputs — each step adjusting the axes
by `PAN_PIXEL_SPEED` in either direction, including sequences that
would overshoot the buffer — the view offset stays within
`[0, BUFFER_WIDTH - WIDTH] × [0, BUFFER_HEIGHT - HEIGHT]` after every
step (every prefix of the sequence is itself a sequence). -/
theorem pan_offset_stays_in_range (s : ViewState) (l : List (JoyDir × JoyDir))
    (h : offsetInRange s.view_x s.view_y) :
    offsetInRange (panSeq s l).view_x (panSeq s l).view_y := by
  induction l generalizing s with
  | nil => exact h
  | cons p l ih =>
    have hstep : offsetInRange (panStep s p.1 p.2).view_x
        (panStep s p.1 p.2).view_y := by
      obtain ⟨h1, h2, h3, h4⟩ := h
      obtain ⟨hx1, hx2⟩ := panX_range p.1 s.view_x h1 h2
      obtain ⟨hy1, hy2⟩ := panY_range p.2 s.view_y h3 h4
      exact ⟨hx1, hx2, hy1, hy2⟩
    have : panSeq s (p :: l) = panSeq (panStep s p.1 p.2) l := by
      simp [panSeq]
    rw [this]
    exact ih _ hstep

/-- C6 witness: the invariant holds at the startup offset `(40, 32)`
and is preserved across a concrete pan sequence. -/
theorem pan_offset_stays_in_range_witness :
    offsetInRange initialState.view_x initialState.view_y ∧
    offsetInRange (panSeq initialState [(JoyDir.low, JoyDir.high)]).view_x
      (panSeq initialState [(JoyDir.low, JoyDir.high)]).view_y := by
  have h0 : offsetInRange initialState.view_x initialState.view_y := by
    norm_num [offsetInRange, initialState, centeredOffsetX, centeredOffsetY,
      BUFFER_WIDTH_eq, BUFFER_HEIGHT_eq, WIDTH, HEIGHT]
  exact ⟨h0, pan_offset_stays_in_range initialState [(JoyDir.low, JoyDir.high)] h0⟩

/-- C7: with `BUFFER_WIDTH = 240`, viewport width `160` and the claim's
stipulated edge threshold `16`: a pan step leaving the x offset at `15`
or at `65` makes the buffer-edge check fire (recompute transition),
while `40` with the y offset mid-range (`32`) does not. -/
theorem edge_threshold_scenario :
    (panX JoyDir.low 16 = 15 ∧ bufferEdgeReached 16 15 32) ∧
    (panX JoyDir.high 64 = 65 ∧ bufferEdgeReached 16 65 32) ∧
    (panX JoyDir.low 41 = 40 ∧ ¬ bufferEdgeReached 16 40 32) := by
  norm_num [panX, bufferEdgeReached, PAN_PIXEL_SPEED,
    BUFFER_WIDTH_eq, BUFFER_HEIGHT_eq, WIDTH, HEIGHT]

/-- C3 counterexample: with the claim's stipulated 240×240 buffer and
the centered offset `(40, 56)`, the computed inner box is
`(x, y, w, h) = (4, 5, 16, 12)`; its top margin is `5` but its bottom
margin is `24 - 5 - 12 = 7`, so the box is **not** centered on the
vertical axis (`int(56 * 24 / 240) = 5`, while exact centering would
need `6`). -/
theorem indicator_box_not_centered_vertically :
    inner_box 240 240 40 56 = (4, 5, 16, 12) ∧
    (inner_box 240 240 40 56).2.1 ≠
      BOX_SIZE - (inner_box 240 240 40 56).2.1 -
        (inner_box 240 240 40 56).2.2.2 := by
  constructor <;> norm_num [inner_box, WIDTH, HEIGHT, BOX_SIZE]

/-- C3 (amended): with `BUFFER_WIDTH = BUFFER_HEIGHT = 240`, viewport
160×128 and overlay size 24, the inner box at the centered offset
`(40, 56)` has `inner_width = max(1, 160·24/240) = 16` and
`inner_height = max(1, int(128·24/240)) = 12`, is centered horizontally
(`x = 4`, margins `4` and `4`), and sits at `y = 5`, one pixel above the
exact vertical center (margins `5` and `7`). -/
theorem indicator_box_scenario :
    inner_box 240 240 40 56 = (4, 5, 16, 12) ∧
    max 1 (WIDTH * BOX_SIZE / 240) = 16 ∧
    max 1 (HEIGHT * BOX_SIZE / 240) = 12 ∧
    BOX_SIZE - 4 - 16 = 4 ∧
    BOX_SIZE - 5 - 12 = 7 := by
  refine ⟨?_, ?_, ?_, ?_, ?_⟩ <;> norm_num [inner_box, WIDTH, HEIGHT, BOX_SIZE]

/-- C9: the buffer renderer stores at every in-bounds buffer pixel
`(x, y)` exactly the evaluator's result at
`real = real_min + x·(real_max - real_min)/BUFFER_WIDTH`,
`imag = imag_max - y·(imag_max - imag_min)/BUFFER_HEIGHT` (vertical
axis inverted) with budget `MAX_ITER`, and that stored color index is
in `[0, MAX_ITER]`. -/
theorem buffer_pixel_formula
    (real_min_buf real_max_buf imag_min_buf imag_max_buf : ℚ) (x y : ℕ)
    (_hx : x < BUFFER_WIDTH) (_hy : y < BUFFER_HEIGHT) :
    calculate_mandelbrot_buffer real_min_buf real_max_buf imag_min_buf imag_max_buf x y =
      mandelbrot
        (real_min_buf + (x : ℚ) * (real_max_buf - real_min_buf) / (BUFFER_WIDTH : ℚ))
        (imag_max_buf - (y : ℚ) * (imag_max_buf - imag_min_buf) / (BUFFER_HEIGHT : ℚ))
        MAX_ITER ∧
    calculate_mandelbrot_buffer real_min_buf real_max_buf imag_min_buf imag_max_buf x y ≤
      MAX_ITER := by
  refine ⟨?_, mandelbrot_le _ _ _⟩
  simp only [calculate_mandelbrot_buffer, mul_div_assoc]

/-- C9 witness: at region `[3, 243] × [-192, 0]` (pixel steps of exactly
1) buffer pixel `(0, 0)` maps to `c = (3, 0)` and stores color index
`1 ≤ MAX_ITER`. -/
theorem buffer_pixel_formula_witness :
    0 < BUFFER_WIDTH ∧ 0 < BUFFER_HEIGHT ∧
    calculate_mandelbrot_buffer 3 243 (-192) 0 0 0 ≤ MAX_ITER ∧
    calculate_mandelbrot_buffer 3 243 (-192) 0 0 0 = 1 := by
  refine ⟨by norm_num [BUFFER_WIDTH_eq], by norm_num [BUFFER_HEIGHT_eq],
    (buffer_pixel_formula 3 243 (-192) 0 0 0
      (by norm_num [BUFFER_WIDTH_eq]) (by norm_num [BUFFER_HEIGHT_eq])).2, ?_⟩
  have hc : calculate_mandelbrot_buffer 3 243 (-192) 0 0 0 =
      mandelbrot 3 0 MAX_ITER := by
    norm_num [calculate_mandelbrot_buffer, BUFFER_WIDTH_eq, BUFFER_HEIGHT_eq]
  rw [hc]
  exact mandelbrot_gt_four 3 0 MAX_ITER (by norm_num) (by norm_num [MAX_ITER])

/-- Members of `intRange lo hi` lie in `[lo, hi]`. -/
theorem mem_intRange {i lo hi : ℤ} (h : i ∈ intRange lo hi) :
    lo ≤ i ∧ i ≤ hi := by
  simp only [intRange, List.mem_map, List.mem_range] at h
  obtain ⟨k, hk, rfl⟩ := h
  omega

/-- C10 counterexample: on a 24×24 bitmap, the rectangle
`(x, y, width, height) = (-5, 5, 20, 10)` (clipped on the left) makes
`draw_rectangle_perimeter` write pixel `(0, 6)`, which lies strictly
inside the given rectangle — not on its 1-pixel perimeter — because the
clamped left column `x_start = max(0, -5) = 0` is an interior column of
the rectangle. -/
theorem draw_rectangle_perimeter_interior_write :
    ((0 : ℤ), (6 : ℤ)) ∈ draw_rectangle_perimeter_writes 24 24 (-5) 5 20 10 ∧
    (-5 : ℤ) < 0 ∧ (0 : ℤ) < -5 + 20 - 1 ∧
    (5 : ℤ) < 6 ∧ (6 : ℤ) < 5 + 10 - 1 := by
  refine ⟨?_, by norm_num, by norm_num, by norm_num, by norm_num⟩
  decide

/-- C10 (amended): every pixel assignment of
`draw_rectangle_perimeter`, for every integer rectangle (negative
coordinates, non-positive dimensions and off-bitmap rectangles
included), has indices inside `[0, bw) × [0, bh)`, and lies on one of
the four clamped edge lines (rows `max(0,y)` / `min(bh-1, y+height-1)`,
columns `max(0,x)` / `min(bw-1, x+width-1)`); consequently, for a
rectangle with positive dimensions lying fully inside the bitmap, every
write is on the rectangle's own 1-pixel perimeter and never in its
interior. -/
theorem draw_rectangle_perimeter_writes_safe (bw bh x y width height : ℤ)
    (p : ℤ × ℤ) (hp : p ∈ draw_rectangle_perimeter_writes bw bh x y width height) :
    (0 ≤ p.1 ∧ p.1 < bw ∧ 0 ≤ p.2 ∧ p.2 < bh) ∧
    (p.2 = max 0 y ∨ p.2 = min (bh - 1) (y + height - 1) ∨
      p.1 = max 0 x ∨ p.1 = min (bw - 1) (x + width - 1)) ∧
    (0 ≤ x → x + width ≤ bw → 0 ≤ y → y + height ≤ bh →
      1 ≤ width → 1 ≤ height →
      (p.2 = y ∨ p.2 = y + height - 1 ∨ p.1 = x ∨ p.1 = x + width - 1) ∧
      ¬ (x < p.1 ∧ p.1 < x + width - 1 ∧ y < p.2 ∧ p.2 < y + height - 1)) := by
  have hmx1 := le_max_left (0 : ℤ) x
  have hmx2 := le_max_right (0 : ℤ) x
  have hmx3 := max_choice (0 : ℤ) x
  have hmy1 := le_max_left (0 : ℤ) y
  have hmy2 := le_max_right (0 : ℤ) y
  have hmy3 := max_choice (0 : ℤ) y
  have hnx1 := min_le_left (bw - 1) (x + width - 1)
  have hnx2 := min_le_right (bw - 1) (x + width - 1)
  have hnx3 := min_choice (bw - 1) (x + width - 1)
  have hny1 := min_le_left (bh - 1) (y + height - 1)
  have hny2 := min_le_right (bh - 1) (y + height - 1)
  have hny3 := min_choice (bh - 1) (y + height - 1)
  simp only [draw_rectangle_perimeter_writes, List.mem_append] at hp
  rcases hp with ((hp | hp) | hp) | hp <;>
    [skip; skip; skip; skip] <;>
    · split at hp
      · rename_i hguard
        simp only [List.mem_map] at hp
        obtain ⟨i, hi, rfl⟩ := hp
        have hir := mem_intRange hi
        dsimp only
        omega
      · simp at hp

/-- C10 witness: the amended statement applied at a concrete in-bounds
rectangle — pixel `(3, 2)` written for rectangle `(3, 2, 5, 4)` on a
24×24 bitmap is in bounds and on the perimeter. -/
theorem draw_rectangle_perimeter_writes_safe_witness :
    ((3 : ℤ), (2 : ℤ)) ∈ draw_rectangle_perimeter_writes 24 24 3 2 5 4 ∧
    (0 ≤ (3 : ℤ) ∧ (3 : ℤ) < 24 ∧ 0 ≤ (2 : ℤ) ∧ (2 : ℤ) < 24) := by
  have hmem : ((3 : ℤ), (2 : ℤ)) ∈ draw_rectangle_perimeter_writes 24 24 3 2 5 4 := by
    decide
  exact ⟨hmem,
    (draw_rectangle_perimeter_writes_safe 24 24 3 2 5 4 (3, 2) hmem).1⟩

end Mandel
